import Mathlib

/-!
Verification of the RevisePDF editor core (src/revisepdf/js/editor.js and
src/revisepdf/js/pdf-viewer.js): a shallow embedding of the annotation data
model, the drag/resize gesture mathematics, the annotation store operations,
the zoom controller and the thumbnail navigation, with theorems checking the
specification's claims against the embedded code.

Coordinates are modelled as `Int` (the source reads them back with
`parseInt(..., 10)` and pointer deltas are integral pixel offsets); the zoom
scale is modelled as `ℚ` (the source uses JS numbers; all constants involved
are exact decimal fractions).
-/

namespace RevisePDF

/-- Variant-specific annotation payload, from the `data` object of
`createAnnotation` and the `annotation.data = {...}` assignments in
`addTextElement` / `addSignature` (editor.js). Absent keys are `none`. -/
structure AnnData where
  text : Option String := none
  fontSize : Option Int := none
  color : Option String := none
  imageData : Option String := none
  svgData : Option String := none
deriving Repr, DecidableEq

/-- An annotation object, from the literal built in `createAnnotation`
(editor.js lines 245-260): id, type, position, size, owning page, payload. -/
structure Annot where
  id : String
  type : String
  x : Int
  y : Int
  width : Int
  height : Int
  page : Nat
  data : AnnData
deriving Repr, DecidableEq

/-- `generateAnnotationId` (editor.js line 454-456):
`'annotation_' + Date.now() + '_' + Math.random().toString(36).substr(2, 9)`.
The environment supplies `now` (the `Date.now()` reading, milliseconds) and
`rand` (the base-36 fragment produced from `Math.random()`). -/
def generateAnnotId (now : Nat) (rand : String) : String :=
  "annotation_" ++ toString now ++ "_" ++ rand

/-- `createAnnotation(type, x, y, width, height)` (editor.js lines 245-260):
builds the annotation object with a fresh id, an empty `data` payload and the
current page, pushes it onto the global `annotations` array and returns it. -/
def createAnnot (annots : List Annot) (typ : String) (x y width height : Int)
    (curPage : Nat) (now : Nat) (rand : String) : List Annot × Annot :=
  let a : Annot :=
    { id := generateAnnotId now rand, type := typ, x := x, y := y,
      width := width, height := height, page := curPage, data := {} }
  (annots ++ [a], a)

/-- The four corner resize handles created by `addResizeHandles`
(editor.js lines 371-384). -/
inductive Handle where
  | topLeft
  | topRight
  | bottomLeft
  | bottomRight
deriving Repr, DecidableEq

/-- The locals captured at the top of `startResize` (editor.js lines 386-393):
pointer start coordinates and the element's starting width/height/left/top. -/
structure ResizeStart where
  startX : Int
  startY : Int
  startWidth : Int
  startHeight : Int
  startLeft : Int
  startTop : Int
deriving Repr, DecidableEq

/-- One tick of `handleMouseMove` inside `startResize` (editor.js lines
395-442): the switch on the handle computes the new geometry from the deltas,
then `Math.max(-, 20)` floors width and height. Returns
`(newWidth, newHeight, newLeft, newTop)`. -/
def resizeMove (s : ResizeStart) (handle : Handle) (clientX clientY : Int) :
    Int × Int × Int × Int :=
  let deltaX := clientX - s.startX
  let deltaY := clientY - s.startY
  let raw : Int × Int × Int × Int :=
    match handle with
    | Handle.topLeft =>
        (s.startWidth - deltaX, s.startHeight - deltaY,
         s.startLeft + deltaX, s.startTop + deltaY)
    | Handle.topRight =>
        (s.startWidth + deltaX, s.startHeight - deltaY,
         s.startLeft, s.startTop + deltaY)
    | Handle.bottomLeft =>
        (s.startWidth - deltaX, s.startHeight + deltaY,
         s.startLeft + deltaX, s.startTop)
    | Handle.bottomRight =>
        (s.startWidth + deltaX, s.startHeight + deltaY,
         s.startLeft, s.startTop)
  (max raw.1 20, max raw.2.1 20, raw.2.2.1, raw.2.2.2)

/-- The assignments `annotation.width/height/x/y = ...` at the end of the
resize `handleMouseMove` (editor.js lines 438-441). -/
def applyResizeMove (a : Annot) (s : ResizeStart) (handle : Handle)
    (clientX clientY : Int) : Annot :=
  let r := resizeMove s handle clientX clientY
  { a with width := r.1, height := r.2.1, x := r.2.2.1, y := r.2.2.2 }

/-- The capture at the top of `startResize`: start pointer plus the
annotation's current geometry (read back from the element's style, which the
move handlers keep equal to the annotation fields). -/
def resizeStartOf (a : Annot) (px py : Int) : ResizeStart :=
  { startX := px, startY := py, startWidth := a.width, startHeight := a.height,
    startLeft := a.x, startTop := a.y }

/-- The locals captured by the drag `mousedown` handler in
`makeAnnotationInteractive` (editor.js lines 334-345). -/
structure DragStart where
  startX : Int
  startY : Int
  startLeft : Int
  startTop : Int
deriving Repr, DecidableEq

/-- One tick of the drag `mousemove` handler (editor.js lines 347-361):
`newLeft = startLeft + deltaX`, `newTop = startTop + deltaY`. Returns the new
`(x, y)`. -/
def dragMove (s : DragStart) (clientX clientY : Int) : Int × Int :=
  (s.startLeft + (clientX - s.startX), s.startTop + (clientY - s.startY))

/-- The assignments `annotation.x/y = ...` in the drag `mousemove` handler. -/
def applyDragMove (a : Annot) (s : DragStart) (clientX clientY : Int) : Annot :=
  let r := dragMove s clientX clientY
  { a with x := r.1, y := r.2 }

/-- The capture in the drag `mousedown` handler: start pointer plus the
annotation's current position. -/
def dragStartOf (a : Annot) (px py : Int) : DragStart :=
  { startX := px, startY := py, startLeft := a.x, startTop := a.y }

/-- In `addTextElement` / `addSignature` the object returned by
`createAnnotation` — already pushed onto the global array — has its `data`
field assigned afterwards; because the array stores a reference, the stored
entry (the last one) carries the payload. This models that in-place
mutation of the most recently pushed annotation. -/
def mutateLastData : List Annot → AnnData → List Annot
  | [], _ => []
  | [a], d => [{ a with data := d }]
  | a :: b :: rest, d => a :: mutateLastData (b :: rest) d

/-- `addSignature` (editor.js lines 484-502): reads `imageData` from the
signature canvas; if it is falsy (empty string) or the empty-canvas sentinel
`'data:,'`, shows a warning notification and returns without touching the
store; otherwise creates a signature annotation at (100, 100) sized 150×75
and assigns the `imageData` payload to the pushed annotation. Returns the
new store and the warning message, if one was shown. -/
def addSignature (annots : List Annot) (curPage : Nat) (now : Nat)
    (rand : String) (imageData : String) : List Annot × Option String :=
  if imageData = "" ∨ imageData = "data:," then
    (annots, some "Please create a signature first")
  else
    (mutateLastData (createAnnot annots "signature" 100 100 150 75 curPage now rand).1
      { imageData := some imageData }, none)

/-- A JS whitespace character, as stripped by `String.prototype.trim`
(restricted to the ASCII whitespace the editor can receive from a text
input). -/
def jsWhitespace (c : Char) : Bool :=
  c == ' ' || c == '\t' || c == '\n' || c == '\r' || c == '\x0b' || c == '\x0c'

/-- The guard `!textContent.trim()` in `addTextElement`: true exactly when
the string trims to the empty string, i.e. every character is whitespace. -/
def trimsToEmpty (s : String) : Bool :=
  s.data.all jsWhitespace

/-- `addTextElement` (editor.js lines 459-482): if the entered text is empty
after trimming (`!textContent.trim()`), shows a warning notification and
returns without touching the store; otherwise creates a text annotation at
(100, 100) sized 200×30 and assigns its text/fontSize/color payload.
Returns the new store and the warning message, if one was shown. -/
def addTextElement (annots : List Annot) (curPage : Nat) (now : Nat)
    (rand : String) (textContent : String) (textSize : Int)
    (textColor : String) : List Annot × Option String :=
  if trimsToEmpty textContent then (annots, some "Please enter some text")
  else
    (mutateLastData (createAnnot annots "text" 100 100 200 30 curPage now rand).1
      { text := some textContent, fontSize := some textSize, color := some textColor }, none)

/-- The annotations owned by one page, in creation (array) order. -/
def readPage (annots : List Annot) (p : Nat) : List Annot :=
  annots.filter (fun a => a.page = p)

/-- A sequence of `createAnnotation` calls driven by an environment stream of
`(Date.now reading, random suffix)` pairs, starting from an empty store. -/
def createMany (env : List (Nat × String)) (curPage : Nat) : List Annot :=
  env.foldl (fun annots e => (createAnnot annots "text" 100 100 200 30 curPage e.1 e.2).1) []

/-- `zoomIn` (editor.js lines 212-215): `scale = Math.min(scale * 1.2, 3.0)`. -/
def zoomIn (scale : ℚ) : ℚ := min (scale * 1.2) 3.0

/-- `zoomOut` (editor.js lines 217-220): `scale = Math.max(scale / 1.2, 0.3)`. -/
def zoomOut (scale : ℚ) : ℚ := max (scale / 1.2) 0.3

/-- A zoom operation: one click of the zoom-in or zoom-out button. -/
inductive ZoomOp where
  | zin
  | zout
deriving Repr, DecidableEq

/-- Apply one zoom operation to the scale. -/
def applyZoom : ZoomOp → ℚ → ℚ
  | ZoomOp.zin, s => zoomIn s
  | ZoomOp.zout, s => zoomOut s

/-- Apply a sequence of zoom operations to the scale, left to right. -/
def applyZoomSeq (ops : List ZoomOp) (s : ℚ) : ℚ :=
  ops.foldl (fun s op => applyZoom op s) s

/-- A page thumbnail canvas (pdf-viewer.js `createPageThumbnail`): its
`data-page` attribute and whether it carries the `active` class. -/
structure Thumb where
  page : Nat
  active : Bool
deriving Repr, DecidableEq

/-- The viewer's navigation state: the globals `totalPages` and `currentPage`
(editor.js lines 5-6) and the children of the `pages-list` container, in DOM
order. -/
structure ViewerSt where
  totalPages : Nat
  curPage : Nat
  thumbs : List Thumb
deriving Repr, DecidableEq

/-- `createPageThumbnail(pageNum)` (pdf-viewer.js lines 46-77): builds a
thumbnail canvas, gives it the `active` class exactly when
`pageNum === currentPage`, and appends it to `pages-list`. -/
def createThumb (st : ViewerSt) (pageNum : Nat) : ViewerSt :=
  { st with thumbs := st.thumbs ++ [{ page := pageNum, active := pageNum == st.curPage }] }

/-- `generatePageThumbnails` (pdf-viewer.js lines 35-44): clears `pages-list`
then creates one thumbnail per page, for `pageNum` from 1 to `totalPages`. -/
def genThumbs (st : ViewerSt) : ViewerSt :=
  (List.range st.totalPages).foldl (fun s i => createThumb s (i + 1))
    { st with thumbs := [] }

/-- The first thumbnail whose `data-page` matches gets the `active` class
(`document.querySelector` returns the first match). -/
def setActiveFirst : List Thumb → Nat → List Thumb
  | [], _ => []
  | t :: ts, p =>
      if t.page = p then { t with active := true } :: ts
      else t :: setActiveFirst ts p

/-- `updateActiveThumbnail` (pdf-viewer.js lines 79-88): removes the `active`
class from every thumbnail, then adds it to the first thumbnail whose
`data-page` equals `currentPage` (if any). -/
def updateActiveThumb (st : ViewerSt) : ViewerSt :=
  { st with thumbs :=
      setActiveFirst (st.thumbs.map (fun t => { t with active := false })) st.curPage }

/-- The thumbnail click handler (pdf-viewer.js lines 61-65):
`currentPage = pageNum; renderPage(currentPage); updateActiveThumbnail()`.
Page rendering does not touch the navigation state. -/
def clickThumb (st : ViewerSt) (pageNum : Nat) : ViewerSt :=
  updateActiveThumb { st with curPage := pageNum }

/-- `goToPage(pageNum)` (pdf-viewer.js lines 115-121): updates `currentPage`
only when `1 <= pageNum <= totalPages`, then re-renders and refreshes the
active thumbnail; otherwise does nothing. -/
def goToPage (st : ViewerSt) (pageNum : Nat) : ViewerSt :=
  if 1 ≤ pageNum ∧ pageNum ≤ st.totalPages then
    updateActiveThumb { st with curPage := pageNum }
  else st

/-- `nextPage` (pdf-viewer.js lines 99-105). -/
def nextPage (st : ViewerSt) : ViewerSt :=
  if st.curPage < st.totalPages then
    updateActiveThumb { st with curPage := st.curPage + 1 }
  else st

/-- `prevPage` (pdf-viewer.js lines 107-113). -/
def prevPage (st : ViewerSt) : ViewerSt :=
  if 1 < st.curPage then
    updateActiveThumb { st with curPage := st.curPage - 1 }
  else st

/-- The document-load continuation in `loadPDF` (editor.js lines 89-96):
`totalPages = pdf.numPages; currentPage = 1;` then thumbnails are generated
for every page. -/
def loadDoc (numPages : Nat) : ViewerSt :=
  genThumbs { totalPages := numPages, curPage := 1, thumbs := [] }

/-- A navigation event: a click on thumbnail `k`, or programmatic
navigation. -/
inductive NavOp where
  | click (k : Nat)
  | goto (k : Nat)
  | next
  | prev
deriving Repr, DecidableEq

/-- Apply one navigation event to the viewer state. -/
def applyNav (st : ViewerSt) : NavOp → ViewerSt
  | NavOp.click k => clickThumb st k
  | NavOp.goto k => goToPage st k
  | NavOp.next => nextPage st
  | NavOp.prev => prevPage st

/-- Apply a sequence of navigation events, left to right. -/
def applyNavSeq (st : ViewerSt) (ops : List NavOp) : ViewerSt :=
  ops.foldl applyNav st

/-- A click on thumbnail `k` is only possible when such a thumbnail exists in
the DOM, i.e. `k` is one of the generated page numbers. -/
def validNav (n : Nat) : NavOp → Prop
  | NavOp.click k => 1 ≤ k ∧ k ≤ n
  | _ => True

/-- The viewer's well-formedness: the thumbnails are exactly pages 1..n in
order, the current page is in range, and a thumbnail carries the `active`
class exactly when its page is the current page. -/
def goodView (st : ViewerSt) : Prop :=
  st.thumbs.map (fun t => t.page) = (List.range st.totalPages).map (· + 1)
  ∧ 1 ≤ st.curPage ∧ st.curPage ≤ st.totalPages
  ∧ ∀ t ∈ st.thumbs, t.active = (t.page == st.curPage)

/-- The asynchronous page-render state (pdf-viewer.js `renderPage`, lines
4-33): the globals `currentPDF` (modelled as a loaded flag), `currentPage`
and `scale`, the queue of in-flight `getPage(...).then` continuations (each
captured its `pageNum` argument at issue time), and the last surface drawn
onto the `pdf-canvas` element, as the pair of the page number and the scale
that its completion read from the global `scale`. -/
structure RenderSt where
  pdfLoaded : Bool
  curPage : Nat
  scale : ℚ
  inFlight : List Nat
  surface : Option (Nat × ℚ)
deriving Repr, DecidableEq

/-- `renderPage(pageNum)`: returns immediately when no PDF is loaded;
otherwise issues `currentPDF.getPage(pageNum)` whose continuation is now in
flight. -/
def issueRender (st : RenderSt) (pageNum : Nat) : RenderSt :=
  if st.pdfLoaded then { st with inFlight := st.inFlight ++ [pageNum] } else st

/-- The completion of the `k`-th in-flight render continuation: it resizes
and redraws the canvas for its captured `pageNum` at the scale read from the
global `scale` at completion time, with no staleness check, and leaves the
in-flight queue without itself. Out-of-range `k` completes nothing. -/
def completeRender (st : RenderSt) (k : Nat) : RenderSt :=
  match st.inFlight.get? k with
  | none => st
  | some p =>
      { st with surface := some (p, st.scale), inFlight := st.inFlight.eraseIdx k }

/-- The thumbnail click handler's effect on the render state:
`currentPage = pageNum; renderPage(pageNum)`. -/
def clickThumbRender (st : RenderSt) (pageNum : Nat) : RenderSt :=
  issueRender { st with curPage := pageNum } pageNum

/-- The interactive state `makeAnnotationInteractive` (editor.js lines
330-369) keeps per annotation element, in its closure: the annotation itself
and, when `isDragging` is true, the captured drag-start locals (`none` while
not dragging). -/
structure InteractiveAnnot where
  annot : Annot
  dragging : Option DragStart
deriving Repr, DecidableEq

/-- The whole interactive overlay: one closure per rendered annotation (in
render order), plus the list of resize gestures currently in progress —
each `startResize` call (editor.js lines 386-452) registers its own
document-level `mousemove`/`mouseup` pair, removed again on mouse-up. An
entry is the index of the annotation being resized, the active handle, and
the captured start geometry. -/
structure EditorSt where
  items : List InteractiveAnnot
  resizes : List (Nat × Handle × ResizeStart)
deriving Repr, DecidableEq

/-- A pointer event on the overlay: mouse-down on an annotation body,
mouse-down on one of an annotation's resize handles (which stops propagation,
so the body handler never fires), a document-level mouse-move, or a
document-level mouse-up. -/
inductive PtrEvent where
  | downBody (i : Nat) (cx cy : Int)
  | downHandle (i : Nat) (h : Handle) (cx cy : Int)
  | move (cx cy : Int)
  | up
deriving Repr, DecidableEq

/-- Mouse-down on annotation `i`'s body (editor.js lines 334-345): sets that
closure's `isDragging = true` and captures the start locals — with no check
of any other annotation's gesture state. -/
def stepDownBody (st : EditorSt) (i : Nat) (cx cy : Int) : EditorSt :=
  match st.items.get? i with
  | none => st
  | some it =>
      { st with items :=
          st.items.set i ({ it with dragging := some (dragStartOf it.annot cx cy) }) }

/-- Mouse-down on annotation `i`'s handle `h` (editor.js lines 379-382 and
386-393): stops propagation and calls `startResize`, which captures the start
geometry and registers a fresh move/up listener pair — with no check of any
already-active gesture. -/
def stepDownHandle (st : EditorSt) (i : Nat) (h : Handle) (cx cy : Int) : EditorSt :=
  match st.items.get? i with
  | none => st
  | some it =>
      { st with resizes := st.resizes ++ [(i, h, resizeStartOf it.annot cx cy)] }

/-- Apply one active resize gesture to the item list (the body of that
gesture's `handleMouseMove`). -/
def applyResizeGesture (items : List InteractiveAnnot)
    (g : Nat × Handle × ResizeStart) (cx cy : Int) : List InteractiveAnnot :=
  match items.get? g.1 with
  | none => items
  | some it =>
      items.set g.1 { it with annot := applyResizeMove it.annot g.2.2 g.2.1 cx cy }

/-- The drag part of a document-level mouse-move: every annotation's drag
`mousemove` listener fires (registered at render time, in render order) and
moves its own annotation exactly when its `isDragging` flag is set. -/
def dragPhase (items : List InteractiveAnnot) (cx cy : Int) : List InteractiveAnnot :=
  items.map (fun it =>
    match it.dragging with
    | none => it
    | some s => { it with annot := applyDragMove it.annot s cx cy })

/-- A document-level mouse-move: the drag listeners fire first (all were
registered at render time), then every active resize gesture's
`handleMouseMove` fires (registered at gesture start, in start order). -/
def stepMove (st : EditorSt) (cx cy : Int) : EditorSt :=
  { st with items :=
      st.resizes.foldl (fun its g => applyResizeGesture its g cx cy) (dragPhase st.items cx cy) }

/-- A document-level mouse-up: every drag listener sets its `isDragging`
flag to false, and every active resize gesture's `handleMouseUp` removes its
own listeners, ending the gesture. -/
def stepUp (st : EditorSt) : EditorSt :=
  { items := st.items.map (fun it => { it with dragging := none }), resizes := [] }

/-- One pointer event's effect on the overlay state. -/
def stepEvent (st : EditorSt) : PtrEvent → EditorSt
  | PtrEvent.downBody i cx cy => stepDownBody st i cx cy
  | PtrEvent.downHandle i h cx cy => stepDownHandle st i h cx cy
  | PtrEvent.move cx cy => stepMove st cx cy
  | PtrEvent.up => stepUp st

/-- Process a sequence of pointer events, left to right. -/
def stepEvents (st : EditorSt) (es : List PtrEvent) : EditorSt :=
  es.foldl stepEvent st

/-- The number of gestures currently active: dragging closures plus resize
gestures in progress. -/
def activeGestures (st : EditorSt) : Nat :=
  st.items.countP (fun it => it.dragging.isSome) + st.resizes.length

/-- A patch for the store's `update` operation, per spec section 4.4. -/
structure Patch where
  position : Option (Int × Int) := none
  size : Option (Int × Int) := none
  payload : Option AnnData := none
deriving Repr, DecidableEq

/-- Apply a patch to one annotation: each present component overwrites the
corresponding fields. -/
def applyPatch (a : Annot) (p : Patch) : Annot :=
  let a := match p.position with
    | none => a
    | some q => { a with x := q.1, y := q.2 }
  let a := match p.size with
    | none => a
    | some q => { a with width := q.1, height := q.2 }
  match p.payload with
  | none => a
  | some d => { a with data := d }

/-- Modelled from the spec: the Annotation Store's `update(id, patch)`
operation has no implementation in src (the observed UI never exercises it);
spec section 4.4 requires it to apply the patch when `id` exists and to be a
silent no-op on an unknown id. -/
def updateById (annots : List Annot) (targetId : String) (p : Patch) : List Annot :=
  annots.map (fun a => if a.id = targetId then applyPatch a p else a)

/-- Modelled from the spec: the Annotation Store's `delete(id)` operation has
no implementation in src (the observed UI never exercises it); spec sections
3 and 4.4 require id-keyed removal as a first-class operation that removes
the annotation when present and is a silent no-op on an unknown id. -/
def deleteById (annots : List Annot) (targetId : String) : List Annot :=
  annots.filter (fun a => a.id ≠ targetId)

/-- A sample annotation, used to instantiate theorems at concrete inputs. -/
def sampleAnnot : Annot :=
  { id := "a1", type := "text", x := 0, y := 0, width := 30, height := 30,
    page := 1, data := {} }

/-- A second sample annotation at a different position. -/
def sampleAnnot2 : Annot :=
  { id := "a2", type := "text", x := 100, y := 0, width := 30, height := 30,
    page := 1, data := {} }

/-- A sample overlay state in which the first annotation is mid-drag. -/
def sampleEditorSt : EditorSt :=
  { items := [{ annot := sampleAnnot, dragging := some (dragStartOf sampleAnnot 0 0) },
              { annot := sampleAnnot2, dragging := none }],
    resizes := [] }

/-- A sample render state with one stale in-flight request for page 1 while
the current page is 2. -/
def sampleRenderSt : RenderSt :=
  { pdfLoaded := true, curPage := 2, scale := 1, inFlight := [1], surface := none }

/-! ## Theorems -/

/-- C1: a resize pointer-move updates the annotation per the active handle —
top-left gives (w0 − dx, h0 − dy, x0 + dx, y0 + dy), top-right
(w0 + dx, h0 − dy, x0, y0 + dy), bottom-left (w0 − dx, h0 + dy, x0 + dx, y0),
bottom-right (w0 + dx, h0 + dy, x0, y0); a computed width or height below 20
is replaced by 20 with no further position adjustment; and from
(x0=100, y0=100, w0=200, h0=30) the bottom-right handle with (dx=50, dy=−40)
yields (100, 100, 250, 20). -/
theorem c1_resize_rule (x0 y0 w0 h0 px py dx dy : Int) :
    (resizeMove ⟨px, py, w0, h0, x0, y0⟩ Handle.topLeft (px + dx) (py + dy)
        = (max (w0 - dx) 20, max (h0 - dy) 20, x0 + dx, y0 + dy))
    ∧ (resizeMove ⟨px, py, w0, h0, x0, y0⟩ Handle.topRight (px + dx) (py + dy)
        = (max (w0 + dx) 20, max (h0 - dy) 20, x0, y0 + dy))
    ∧ (resizeMove ⟨px, py, w0, h0, x0, y0⟩ Handle.bottomLeft (px + dx) (py + dy)
        = (max (w0 - dx) 20, max (h0 + dy) 20, x0 + dx, y0))
    ∧ (resizeMove ⟨px, py, w0, h0, x0, y0⟩ Handle.bottomRight (px + dx) (py + dy)
        = (max (w0 + dx) 20, max (h0 + dy) 20, x0, y0))
    ∧ applyResizeMove
        { id := "a", type := "text", x := 100, y := 100, width := 200,
          height := 30, page := 1, data := {} }
        (resizeStartOf
          { id := "a", type := "text", x := 100, y := 100, width := 200,
            height := 30, page := 1, data := {} } 0 0)
        Handle.bottomRight 50 (-40)
      = { id := "a", type := "text", x := 100, y := 100, width := 250,
          height := 20, page := 1, data := {} } := by
  refine ⟨?_, ?_, ?_, ?_, by decide⟩ <;> simp [resizeMove, Prod.ext_iff]

/-- C2: a drag pointer-move sets the annotation's position to
(x0 + dx, y0 + dy) with width and height unchanged and no clamping to page
bounds; in particular dragging from (50, 60) by (15, −5) yields (65, 55)
with size unchanged. -/
theorem c2_drag_rule (a : Annot) (px py dx dy : Int) :
    applyDragMove a (dragStartOf a px py) (px + dx) (py + dy)
      = { a with x := a.x + dx, y := a.y + dy }
    ∧ (applyDragMove a (dragStartOf a px py) (px + dx) (py + dy)).width = a.width
    ∧ (applyDragMove a (dragStartOf a px py) (px + dx) (py + dy)).height = a.height
    ∧ applyDragMove
        { id := "a", type := "text", x := 50, y := 60, width := 200,
          height := 30, page := 1, data := {} }
        (dragStartOf
          { id := "a", type := "text", x := 50, y := 60, width := 200,
            height := 30, page := 1, data := {} } 7 9)
        (7 + 15) (9 + -5)
      = { id := "a", type := "text", x := 65, y := 55, width := 200,
          height := 30, page := 1, data := {} } := by
  refine ⟨?_, ?_, ?_, by decide⟩ <;> simp [applyDragMove, dragMove, dragStartOf]

/-- C3: creating an annotation with a missing or empty required payload
(text with empty trimmed text, signature with empty image data) is rejected
synchronously with a warning and leaves the store unchanged; in particular
an empty-imageData signature creation leaves the page-1 store empty. -/
theorem c3_create_validation (annots : List Annot) (curPage now : Nat)
    (rand textContent textColor : String) (textSize : Int)
    (htext : trimsToEmpty textContent = true) :
    addSignature annots curPage now rand ""
      = (annots, some "Please create a signature first")
    ∧ addTextElement annots curPage now rand textContent textSize textColor
      = (annots, some "Please enter some text")
    ∧ readPage (addSignature [] 1 now rand "").1 1 = [] := by
  refine ⟨?_, ?_, ?_⟩
  · simp [addSignature]
  · simp [addTextElement, htext]
  · simp [addSignature, readPage]

/-- C3 witness: the rejection theorem at concrete inputs. -/
theorem c3_create_validation_witness :
    addSignature [] 1 0 "abc" "" = ([], some "Please create a signature first")
    ∧ addTextElement [] 1 0 "abc" "  " 14 "#000000"
      = ([], some "Please enter some text")
    ∧ readPage (addSignature [] 1 0 "abc" "").1 1 = [] :=
  c3_create_validation [] 1 0 "abc" "  " "#000000" 14 (by decide)

/-- The ids produced by a `createAnnotation` sequence are the ids generated
from the environment stream, in order (helper). -/
theorem createMany_ids (env : List (Nat × String)) (p : Nat) :
    (createMany env p).map (fun a => a.id)
      = env.map (fun e => generateAnnotId e.1 e.2) := by
  suffices h : ∀ (env : List (Nat × String)) (annots : List Annot),
      ((env.foldl (fun annots e =>
          (createAnnot annots "text" 100 100 200 30 p e.1 e.2).1) annots).map
        (fun a => a.id))
        = annots.map (fun a => a.id) ++ env.map (fun e => generateAnnotId e.1 e.2) by
    simpa [createMany] using h env []
  intro env
  induction env with
  | nil => intro annots; simp
  | cons e env ih =>
      intro annots
      rw [List.foldl_cons, ih]
      simp [createAnnot]

/-- `Nat.digitChar` never yields the underscore separator on a decimal digit
(helper). -/
theorem digitChar_ne_underscore (m : Nat) (hm : m < 10) :
    Nat.digitChar m ≠ '_' := by
  interval_cases m <;> decide

/-- `Nat.digitChar` is injective on decimal digits (helper). -/
theorem digitChar_inj (d1 d2 : Nat) (h1 : d1 < 10) (h2 : d2 < 10)
    (h : Nat.digitChar d1 = Nat.digitChar d2) : d1 = d2 := by
  interval_cases d1 <;> interval_cases d2 <;> revert h <;> decide

/-- Mapping `Nat.digitChar` over decimal-digit lists is injective (helper). -/
theorem map_digitChar_inj (l1 l2 : List Nat) (h1 : ∀ x ∈ l1, x < 10)
    (h2 : ∀ x ∈ l2, x < 10)
    (h : l1.map Nat.digitChar = l2.map Nat.digitChar) : l1 = l2 := by
  induction l1 generalizing l2 with
  | nil =>
      cases l2 with
      | nil => rfl
      | cons y l2 => simp at h
  | cons x l1 ih =>
      cases l2 with
      | nil => simp at h
      | cons y l2 =>
          simp only [List.map_cons, List.cons.injEq] at h
          have hxy : x = y := digitChar_inj x y
            (h1 x (List.mem_cons_self x l1)) (h2 y (List.mem_cons_self y l2)) h.1
          rw [hxy, ih l2 (fun v hv => h1 v (List.mem_cons_of_mem x hv))
            (fun v hv => h2 v (List.mem_cons_of_mem y hv)) h.2]

/-- `Nat.toDigitsCore` produces the decimal digits, most significant first,
in front of the accumulator (helper). -/
theorem toDigitsCore_eq (fuel n : Nat) (ds : List Char) (hpos : 0 < n)
    (hfuel : n < fuel) :
    Nat.toDigitsCore 10 fuel n ds
      = ((Nat.digits 10 n).map Nat.digitChar).reverse ++ ds := by
  induction fuel generalizing n ds with
  | zero => omega
  | succ fuel ih =>
      have hd := Nat.digits_def' (by norm_num : 1 < 10) hpos
      simp only [Nat.toDigitsCore]
      by_cases hdiv : n / 10 = 0
      · rw [if_pos hdiv, hd, hdiv]
        simp
      · rw [if_neg hdiv]
        rw [ih (n / 10) _ (Nat.pos_of_ne_zero hdiv)
          (lt_of_lt_of_le (Nat.div_lt_self hpos (by norm_num))
            (Nat.lt_succ_iff.mp hfuel))]
        rw [hd]
        simp

/-- The characters of a positive number's decimal representation (helper). -/
theorem repr_data (n : Nat) (hn : 0 < n) :
    (Nat.repr n).data = ((Nat.digits 10 n).map Nat.digitChar).reverse := by
  unfold Nat.repr Nat.toDigits
  rw [toDigitsCore_eq (n + 1) n [] hn (Nat.lt_succ_self n)]
  simp [List.asString]

/-- The decimal string representation of a natural number is injective
(helper). -/
theorem nat_repr_inj (a b : Nat) (h : Nat.repr a = Nat.repr b) : a = b := by
  have hdata := congrArg String.data h
  rcases Nat.eq_zero_or_pos a with rfl | ha
  · rcases Nat.eq_zero_or_pos b with rfl | hb
    · rfl
    · exfalso
      rw [repr_data b hb] at hdata
      have hmap : (Nat.digits 10 b).map Nat.digitChar = ['0'] := by
        have := congrArg List.reverse hdata
        simpa using this.symm
      have hb0 : Nat.digits 10 b = [0] := by
        cases hl : Nat.digits 10 b with
        | nil => rw [hl] at hmap; simp at hmap
        | cons d tl =>
            cases tl with
            | nil =>
                rw [hl] at hmap
                simp only [List.map_cons, List.map_nil, List.cons.injEq] at hmap
                have hd10 : d < 10 :=
                  Nat.digits_lt_base (by norm_num) (hl ▸ List.mem_cons_self d [])
                have : d = 0 := digitChar_inj d 0 hd10 (by norm_num)
                  (by rw [hmap.1]; decide)
                rw [this]
            | cons d2 tl2 => rw [hl] at hmap; simp at hmap
      have := Nat.ofDigits_digits 10 b
      rw [hb0] at this
      simp [Nat.ofDigits] at this
      omega
  · rcases Nat.eq_zero_or_pos b with rfl | hb
    · exfalso
      rw [repr_data a ha] at hdata
      have hmap : (Nat.digits 10 a).map Nat.digitChar = ['0'] := by
        have := congrArg List.reverse hdata
        simpa using this
      have ha0 : Nat.digits 10 a = [0] := by
        cases hl : Nat.digits 10 a with
        | nil => rw [hl] at hmap; simp at hmap
        | cons d tl =>
            cases tl with
            | nil =>
                rw [hl] at hmap
                simp only [List.map_cons, List.map_nil, List.cons.injEq] at hmap
                have hd10 : d < 10 :=
                  Nat.digits_lt_base (by norm_num) (hl ▸ List.mem_cons_self d [])
                have : d = 0 := digitChar_inj d 0 hd10 (by norm_num)
                  (by rw [hmap.1]; decide)
                rw [this]
            | cons d2 tl2 => rw [hl] at hmap; simp at hmap
      have := Nat.ofDigits_digits 10 a
      rw [ha0] at this
      simp [Nat.ofDigits] at this
      omega
    · rw [repr_data a ha, repr_data b hb] at hdata
      have hmap := List.reverse_injective hdata
      have hdigits : Nat.digits 10 a = Nat.digits 10 b :=
        map_digitChar_inj _ _
          (fun x hx => Nat.digits_lt_base (by norm_num) hx)
          (fun x hx => Nat.digits_lt_base (by norm_num) hx) hmap
      calc a = Nat.ofDigits 10 (Nat.digits 10 a) := (Nat.ofDigits_digits 10 a).symm
      _ = Nat.ofDigits 10 (Nat.digits 10 b) := by rw [hdigits]
      _ = b := Nat.ofDigits_digits 10 b

/-- A natural number's decimal representation contains no underscore
(helper). -/
theorem repr_no_underscore (n : Nat) : '_' ∉ (Nat.repr n).data := by
  rcases Nat.eq_zero_or_pos n with rfl | hn
  · decide
  · rw [repr_data n hn]
    intro hmem
    rw [List.mem_reverse] at hmem
    rcases List.mem_map.mp hmem with ⟨d, hdmem, hd⟩
    exact digitChar_ne_underscore d (Nat.digits_lt_base (by norm_num) hdmem) hd

/-- Splitting at the first underscore separator: equal concatenations with
underscore-free heads have equal heads and equal tails (helper). -/
theorem append_sep_inj (d1 s1 : List Char) :
    ∀ (d2 s2 : List Char), '_' ∉ d1 → '_' ∉ d2 →
    d1 ++ '_' :: s1 = d2 ++ '_' :: s2 → d1 = d2 ∧ s1 = s2 := by
  induction d1 with
  | nil =>
      intro d2 s2 h1 h2 h
      cases d2 with
      | nil => simpa using h
      | cons c d2 =>
          simp only [List.nil_append, List.cons_append, List.cons.injEq] at h
          exact absurd (h.1.symm ▸ List.mem_cons_self c d2) h2
  | cons c d1 ih =>
      intro d2 s2 h1 h2 h
      cases d2 with
      | nil =>
          simp only [List.cons_append, List.nil_append, List.cons.injEq] at h
          exact absurd (h.1 ▸ List.mem_cons_self c d1) h1
      | cons c2 d2 =>
          simp only [List.cons_append, List.cons.injEq] at h
          obtain ⟨hc, hrest⟩ := h
          obtain ⟨hd, hs⟩ := ih d2 s2
            (fun hx => h1 (List.mem_cons_of_mem c hx))
            (fun hx => h2 (List.mem_cons_of_mem c2 hx)) hrest
          exact ⟨by rw [hc, hd], hs⟩

/-- `toString` on naturals is `Nat.repr` (helper). -/
theorem toString_nat_eq_repr (t : Nat) : (toString t : String) = Nat.repr t := rfl

/-- The generated annotation id determines both the timestamp and the random
suffix: `generateAnnotId` is injective as a function of the pair (helper). -/
theorem generateAnnotId_inj (t1 t2 : Nat) (r1 r2 : String)
    (h : generateAnnotId t1 r1 = generateAnnotId t2 r2) : t1 = t2 ∧ r1 = r2 := by
  simp only [generateAnnotId] at h
  have hdata := congrArg String.data h
  simp only [String.data_append, toString_nat_eq_repr, List.append_assoc] at hdata
  have hcancel := List.append_cancel_left hdata
  have hsep := append_sep_inj (Nat.repr t1).data r1.data (Nat.repr t2).data r2.data
    (repr_no_underscore t1) (repr_no_underscore t2) (by simpa using hcancel)
  exact ⟨nat_repr_inj t1 t2 (String.ext hsep.1), String.ext hsep.2⟩

/-- C6 counterexample: an environment that repeats the same `Date.now`
reading and the same `Math.random` suffix yields two equal ids, so the ids
of a creation sequence are not always pairwise distinct. -/
theorem c6_counterexample :
    ¬ ((createMany [(0, "abc"), (0, "abc")] 1).map (fun a => a.id)).Pairwise (· ≠ ·) := by
  decide

/-- C6 amended: generated ids are pairwise distinct whenever the
`(Date.now reading, random suffix)` observations of the creation sequence are
pairwise distinct — multi-tick sequences included, and in particular rapid
same-tick creation with distinct suffixes; when an observation repeats
exactly, the id repeats too, so uniqueness is conditional on the environment,
not guaranteed for every sequence. -/
theorem c6_amended (env : List (Nat × String)) (p : Nat)
    (hdist : env.Pairwise (· ≠ ·)) :
    ((createMany env p).map (fun a => a.id)).Pairwise (· ≠ ·) := by
  rw [createMany_ids, List.pairwise_map]
  refine hdist.imp ?_
  intro a b hne heq
  obtain ⟨ht, hr⟩ := generateAnnotId_inj a.1 b.1 a.2 b.2 heq
  exact hne (Prod.ext ht hr)

/-- C6 amended witness: three creations spanning two ticks, with a suffix
repeated across ticks but pairwise-distinct observations. -/
theorem c6_amended_witness :
    ((createMany [(5, "a"), (5, "b"), (6, "a")] 1).map (fun a => a.id)).Pairwise (· ≠ ·) :=
  c6_amended [(5, "a"), (5, "b"), (6, "a")] 1 (by decide)

/-- One zoom operation keeps the scale inside [0.3, 3.0] (helper). -/
theorem applyZoom_mem (op : ZoomOp) (s : ℚ) (h₁ : 0.3 ≤ s) (h₂ : s ≤ 3.0) :
    0.3 ≤ applyZoom op s ∧ applyZoom op s ≤ 3.0 := by
  cases op with
  | zin =>
      refine ⟨le_min (by nlinarith) (by norm_num), min_le_right _ _⟩
  | zout =>
      refine ⟨le_max_right _ _,
        max_le ((div_le_iff₀ (by norm_num : (0 : ℚ) < 1.2)).mpr (by nlinarith))
          (by norm_num)⟩

/-- A zoom-operation sequence keeps the scale inside [0.3, 3.0] (helper). -/
theorem applyZoomSeq_mem (ops : List ZoomOp) (s : ℚ) (h₁ : 0.3 ≤ s)
    (h₂ : s ≤ 3.0) :
    0.3 ≤ applyZoomSeq ops s ∧ applyZoomSeq ops s ≤ 3.0 := by
  induction ops generalizing s with
  | nil => exact ⟨h₁, h₂⟩
  | cons op ops ih =>
      have h := applyZoom_mem op s h₁ h₂
      simpa [applyZoomSeq] using ih (applyZoom op s) h.1 h.2

/-- C7: from any scale in [0.3, 3.0], every sequence of zoom operations
keeps the scale in [0.3, 3.0]; at a bound a zoom is a silent no-op; and 50
zoom-ins from 1.0 never exceed 3.0 while 50 zoom-outs from 1.0 never go
below 0.3. -/
theorem c7_zoom_clamped (s : ℚ) (ops : List ZoomOp)
    (h : 0.3 ≤ s ∧ s ≤ 3.0) :
    (0.3 ≤ applyZoomSeq ops s ∧ applyZoomSeq ops s ≤ 3.0)
    ∧ zoomIn 3.0 = 3.0
    ∧ zoomOut 0.3 = 0.3
    ∧ applyZoomSeq (List.replicate 50 ZoomOp.zin) 1.0 ≤ 3.0
    ∧ 0.3 ≤ applyZoomSeq (List.replicate 50 ZoomOp.zout) 1.0 := by
  refine ⟨applyZoomSeq_mem ops s h.1 h.2, ?_, ?_, ?_, ?_⟩
  · exact min_eq_right (by norm_num)
  · exact max_eq_right (by norm_num)
  · exact (applyZoomSeq_mem _ 1.0 (by norm_num) (by norm_num)).2
  · exact (applyZoomSeq_mem _ 1.0 (by norm_num) (by norm_num)).1

/-- C7 witness: the zoom theorem at scale 1.0 and a concrete zoom
sequence. -/
theorem c7_zoom_clamped_witness :
    ((0.3 : ℚ) ≤ 1.0 ∧ (1.0 : ℚ) ≤ 3.0)
    ∧ (0.3 ≤ applyZoomSeq [ZoomOp.zin, ZoomOp.zout] 1.0
        ∧ applyZoomSeq [ZoomOp.zin, ZoomOp.zout] 1.0 ≤ 3.0) :=
  ⟨by norm_num, (c7_zoom_clamped 1.0 [ZoomOp.zin, ZoomOp.zout] (by norm_num)).1⟩

/-- C9: on an id not present in the store, `update` and `delete` are silent
no-ops leaving the store unchanged; and `delete` removes exactly the
annotations bearing the target id, keeping everything else. -/
theorem c9_unknown_id_noop (annots : List Annot) (targetId : String) (p : Patch) :
    ((∀ a ∈ annots, a.id ≠ targetId) →
      updateById annots targetId p = annots ∧ deleteById annots targetId = annots)
    ∧ (∀ a, a ∈ deleteById annots targetId ↔ a ∈ annots ∧ a.id ≠ targetId) := by
  constructor
  · intro h
    constructor
    · exact (List.map_congr_left (fun a ha => by simp [h a ha])).trans
        (List.map_id annots)
    · exact List.filter_eq_self.mpr (fun a ha => by simp [h a ha])
  · intro a
    simp [deleteById]

/-- C9 witness: the no-op theorem at a concrete store and unknown id. -/
theorem c9_unknown_id_noop_witness :
    updateById
        [{ id := "a1", type := "text", x := 0, y := 0, width := 20,
           height := 20, page := 1, data := {} }] "zzz" {}
      = [{ id := "a1", type := "text", x := 0, y := 0, width := 20,
           height := 20, page := 1, data := {} }]
    ∧ deleteById
        [{ id := "a1", type := "text", x := 0, y := 0, width := 20,
           height := 20, page := 1, data := {} }] "zzz"
      = [{ id := "a1", type := "text", x := 0, y := 0, width := 20,
           height := 20, page := 1, data := {} }] :=
  (c9_unknown_id_noop
    [{ id := "a1", type := "text", x := 0, y := 0, width := 20,
       height := 20, page := 1, data := {} }] "zzz" {}).1 (by decide)

/-- C10: a drag step mutates only the target annotation's x and y; a resize
step mutates only its x, y, width and height; id, type, page and payload are
preserved by both, and every other annotation in the store is untouched by a
gesture step. -/
theorem c10_gesture_frame :
    (∀ (a : Annot) (s : DragStart) (cx cy : Int),
        (applyDragMove a s cx cy).id = a.id
        ∧ (applyDragMove a s cx cy).type = a.type
        ∧ (applyDragMove a s cx cy).page = a.page
        ∧ (applyDragMove a s cx cy).data = a.data
        ∧ (applyDragMove a s cx cy).width = a.width
        ∧ (applyDragMove a s cx cy).height = a.height)
    ∧ (∀ (a : Annot) (s : ResizeStart) (hd : Handle) (cx cy : Int),
        (applyResizeMove a s hd cx cy).id = a.id
        ∧ (applyResizeMove a s hd cx cy).type = a.type
        ∧ (applyResizeMove a s hd cx cy).page = a.page
        ∧ (applyResizeMove a s hd cx cy).data = a.data)
    ∧ (∀ (items : List InteractiveAnnot) (cx cy : Int) (j : Nat)
        (it : InteractiveAnnot), items.get? j = some it → it.dragging = none →
        (dragPhase items cx cy).get? j = some it)
    ∧ (∀ (items : List InteractiveAnnot) (g : Nat × Handle × ResizeStart)
        (cx cy : Int) (j : Nat), j ≠ g.1 →
        (applyResizeGesture items g cx cy).get? j = items.get? j) := by
  refine ⟨?_, ?_, ?_, ?_⟩
  · intro a s cx cy
    simp [applyDragMove]
  · intro a s hd cx cy
    simp [applyResizeMove]
  · intro items cx cy j it hget hdrag
    rw [List.get?_eq_getElem?] at hget
    simp [dragPhase, List.getElem?_map, hget, hdrag]
  · intro items g cx cy j hj
    unfold applyResizeGesture
    cases h : items.get? g.1 with
    | none => rfl
    | some it =>
        simp only [List.get?_eq_getElem?]
        exact List.getElem?_set_ne (Ne.symm hj)

/-- C10 witness: the frame theorem at a concrete two-annotation store. -/
theorem c10_gesture_frame_witness :
    (dragPhase [{ annot := sampleAnnot, dragging := none }] 3 4).get? 0
      = some { annot := sampleAnnot, dragging := none }
    ∧ (applyResizeGesture
        [{ annot := sampleAnnot, dragging := none },
         { annot := sampleAnnot2, dragging := none }]
        (1, Handle.topLeft, resizeStartOf sampleAnnot2 0 0) 3 4).get? 0
      = some { annot := sampleAnnot, dragging := none } :=
  ⟨c10_gesture_frame.2.2.1 [{ annot := sampleAnnot, dragging := none }] 3 4 0
      { annot := sampleAnnot, dragging := none } (by decide) rfl,
   c10_gesture_frame.2.2.2
      [{ annot := sampleAnnot, dragging := none },
       { annot := sampleAnnot2, dragging := none }]
      (1, Handle.topLeft, resizeStartOf sampleAnnot2 0 0) 3 4 0 (by decide)⟩

/-- C4 counterexample: from a two-annotation overlay, a pointer-down on
annotation 0's body starts a drag; a second pointer-down on annotation 1's
body while that gesture is active is not ignored — it changes the state,
makes two gestures active at once, and the following pointer-move moves both
annotations. -/
theorem c4_counterexample :
    (activeGestures (stepEvent
        { items := [{ annot := sampleAnnot, dragging := none },
                    { annot := sampleAnnot2, dragging := none }], resizes := [] }
        (PtrEvent.downBody 0 0 0)) = 1)
    ∧ (stepEvent (stepEvent
        { items := [{ annot := sampleAnnot, dragging := none },
                    { annot := sampleAnnot2, dragging := none }], resizes := [] }
        (PtrEvent.downBody 0 0 0)) (PtrEvent.downBody 1 100 0)
      ≠ stepEvent
        { items := [{ annot := sampleAnnot, dragging := none },
                    { annot := sampleAnnot2, dragging := none }], resizes := [] }
        (PtrEvent.downBody 0 0 0))
    ∧ (activeGestures (stepEvent (stepEvent
        { items := [{ annot := sampleAnnot, dragging := none },
                    { annot := sampleAnnot2, dragging := none }], resizes := [] }
        (PtrEvent.downBody 0 0 0)) (PtrEvent.downBody 1 100 0)) = 2)
    ∧ ((stepEvents
        { items := [{ annot := sampleAnnot, dragging := none },
                    { annot := sampleAnnot2, dragging := none }], resizes := [] }
        [PtrEvent.downBody 0 0 0, PtrEvent.downBody 1 100 0,
         PtrEvent.move 10 5]).items.map (fun it => (it.annot.x, it.annot.y))
      = [(10, 5), (10, 5)]) := by
  decide

/-- C4 amended: gesture state is per annotation, not a single global slot —
a pointer-down on an annotation's body always starts that annotation's drag,
leaving any other annotation's active gesture untouched (so two gestures can
be active concurrently), and one pointer-up ends every active gesture. -/
theorem c4_amended (st : EditorSt) (i : Nat) (it : InteractiveAnnot)
    (cx cy : Int) (hi : st.items.get? i = some it) :
    ((stepDownBody st i cx cy).items.get? i
      = some { it with dragging := some (dragStartOf it.annot cx cy) })
    ∧ (∀ j, j ≠ i → (stepDownBody st i cx cy).items.get? j = st.items.get? j)
    ∧ (stepDownBody st i cx cy).resizes = st.resizes
    ∧ activeGestures (stepUp st) = 0 := by
  obtain ⟨hlt, -⟩ := List.get?_eq_some.mp hi
  refine ⟨?_, ?_, ?_, ?_⟩
  · simp only [stepDownBody, hi]
    simp only [List.get?_eq_getElem?]
    exact List.getElem?_set_eq_of_lt _ hlt
  · intro j hj
    simp only [stepDownBody, hi]
    simp only [List.get?_eq_getElem?]
    exact List.getElem?_set_ne (Ne.symm hj)
  · rw [List.get?_eq_getElem?] at hi
    simp [stepDownBody, hi]
  · simp [activeGestures, stepUp, List.countP_map, Function.comp_def]

/-- C4 amended witness: a pointer-down on annotation 1 while annotation 0 is
mid-drag starts annotation 1's gesture, leaves annotation 0's state alone,
and a pointer-up clears everything. -/
theorem c4_amended_witness :
    ((stepDownBody sampleEditorSt 1 100 0).items.get? 1
      = some { annot := sampleAnnot2,
               dragging := some (dragStartOf sampleAnnot2 100 0) })
    ∧ (stepDownBody sampleEditorSt 1 100 0).items.get? 0
      = sampleEditorSt.items.get? 0
    ∧ activeGestures (stepUp sampleEditorSt) = 0 :=
  ⟨(c4_amended sampleEditorSt 1 { annot := sampleAnnot2, dragging := none }
      100 0 (by decide)).1,
   (c4_amended sampleEditorSt 1 { annot := sampleAnnot2, dragging := none }
      100 0 (by decide)).2.1 0 (by decide),
   (c4_amended sampleEditorSt 1 { annot := sampleAnnot2, dragging := none }
      100 0 (by decide)).2.2.2⟩

/-- C5 counterexample: with render requests for page 1 and then page 2 in
flight, the page-2 request completes first and the stale page-1 completion
then overwrites the surface, leaving page 1 displayed while the current page
is 2 — no generation counter discards the stale completion. -/
theorem c5_counterexample :
    ((completeRender (completeRender (clickThumbRender
        (issueRender { pdfLoaded := true, curPage := 1, scale := 1,
                       inFlight := [], surface := none } 1) 2) 1) 0).curPage = 2)
    ∧ ((completeRender (completeRender (clickThumbRender
        (issueRender { pdfLoaded := true, curPage := 1, scale := 1,
                       inFlight := [], surface := none } 1) 2) 1) 0).surface.map
          Prod.fst = some 1)
    ∧ ((completeRender (completeRender (clickThumbRender
        (issueRender { pdfLoaded := true, curPage := 1, scale := 1,
                       inFlight := [], surface := none } 1) 2) 1) 0).surface.map
          Prod.fst
        ≠ some ((completeRender (completeRender (clickThumbRender
            (issueRender { pdfLoaded := true, curPage := 1, scale := 1,
                           inFlight := [], surface := none } 1) 2) 1) 0).curPage)) := by
  refine ⟨rfl, rfl, ?_⟩
  simp [issueRender, clickThumbRender, completeRender]

/-- C5 amended: no generation counter exists — every in-flight completion
unconditionally redraws the surface with its captured page number at the
scale read at completion time, so a completion whose page is no longer
current leaves the surface showing the wrong page. -/
theorem c5_amended (st : RenderSt) (k p : Nat)
    (h : st.inFlight.get? k = some p) :
    (completeRender st k).surface = some (p, st.scale)
    ∧ (p ≠ st.curPage →
        (completeRender st k).surface.map Prod.fst ≠ some st.curPage) := by
  rw [List.get?_eq_getElem?] at h
  refine ⟨?_, ?_⟩
  · simp [completeRender, h]
  · intro hne
    simp [completeRender, h, hne]

/-- C5 amended witness: completing the stale page-1 request of the sample
render state overwrites the surface with page 1 although page 2 is
current. -/
theorem c5_amended_witness :
    (completeRender sampleRenderSt 0).surface = some (1, sampleRenderSt.scale)
    ∧ (completeRender sampleRenderSt 0).surface.map Prod.fst
      ≠ some sampleRenderSt.curPage :=
  ⟨(c5_amended sampleRenderSt 0 1 rfl).1,
   (c5_amended sampleRenderSt 0 1 rfl).2 (by decide)⟩

/-- The thumbnail-generation loop only appends the thumbnails of the listed
pages (helper). -/
theorem foldl_createThumb (l : List Nat) (st : ViewerSt) :
    l.foldl (fun s i => createThumb s (i + 1)) st
      = { st with thumbs :=
            st.thumbs ++ l.map (fun i => { page := i + 1, active := i + 1 == st.curPage }) } := by
  induction l generalizing st with
  | nil => simp
  | cons a l ih =>
      rw [List.foldl_cons, ih]
      simp [createThumb]

/-- Closed form of a freshly loaded document's viewer state (helper). -/
theorem loadDoc_eq (n : Nat) :
    loadDoc n
      = { totalPages := n, curPage := 1,
          thumbs := (List.range n).map
            (fun i => { page := i + 1, active := i + 1 == 1 }) } := by
  rw [loadDoc, genThumbs, foldl_createThumb]
  simp

/-- `setActiveFirst` does not change the pages of the thumbnails (helper). -/
theorem setActiveFirst_pages (ts : List Thumb) (p : Nat) :
    (setActiveFirst ts p).map (fun t => t.page) = ts.map (fun t => t.page) := by
  induction ts with
  | nil => rfl
  | cons t ts ih =>
      by_cases h : t.page = p <;> simp [setActiveFirst, h, ih]

/-- On an all-inactive list with distinct pages, `setActiveFirst` marks a
thumbnail active exactly when its page is the target (helper). -/
theorem setActiveFirst_active (ts : List Thumb) (p : Nat)
    (hall : ∀ t ∈ ts, t.active = false)
    (hnd : (ts.map (fun t => t.page)).Nodup) :
    ∀ t ∈ setActiveFirst ts p, t.active = (t.page == p) := by
  induction ts with
  | nil => simp [setActiveFirst]
  | cons t ts ih =>
      simp only [List.map_cons, List.nodup_cons] at hnd
      intro u hu
      by_cases h : t.page = p
      · rw [setActiveFirst, if_pos h] at hu
        rcases List.mem_cons.mp hu with rfl | hu
        · simp [h]
        · have hfalse := hall u (List.mem_cons_of_mem t hu)
          have hne : u.page ≠ p := fun hup => hnd.1 (by
            rw [h, ← hup]
            exact List.mem_map_of_mem (fun t => t.page) hu)
          simp [hfalse, hne]
      · rw [setActiveFirst, if_neg h] at hu
        rcases List.mem_cons.mp hu with rfl | hu
        · simp [hall _ (List.mem_cons_self _ _), h]
        · exact ih (fun v hv => hall v (List.mem_cons_of_mem t hv)) hnd.2 u hu

/-- `updateActiveThumbnail` keeps pages, current page and page count, and
re-establishes `active` exactly on the current page when the thumbnails are
the distinct pages 1..totalPages (helper). -/
theorem updateActiveThumb_spec (st : ViewerSt)
    (hp : st.thumbs.map (fun t => t.page) = (List.range st.totalPages).map (· + 1)) :
    (updateActiveThumb st).totalPages = st.totalPages
    ∧ (updateActiveThumb st).curPage = st.curPage
    ∧ (updateActiveThumb st).thumbs.map (fun t => t.page)
      = st.thumbs.map (fun t => t.page)
    ∧ ∀ t ∈ (updateActiveThumb st).thumbs, t.active = (t.page == st.curPage) := by
  have hpages : ((st.thumbs.map (fun t => { t with active := false })).map
      (fun t => t.page)) = st.thumbs.map (fun t => t.page) := by
    simp [List.map_map, Function.comp_def]
  have hnd : ((st.thumbs.map (fun t => { t with active := false })).map
      (fun t => t.page)).Nodup := by
    rw [hpages, hp]
    exact List.Nodup.map (fun a b hab => by omega) (List.nodup_range _)
  refine ⟨rfl, rfl, ?_, ?_⟩
  · rw [updateActiveThumb]
    simp only []
    rw [setActiveFirst_pages, hpages]
  · intro t ht
    exact setActiveFirst_active _ st.curPage
      (fun u hu => by
        rcases List.mem_map.mp hu with ⟨v, -, hv⟩
        rw [← hv])
      hnd t ht

/-- One valid navigation event preserves the viewer invariant and the page
count (helper). -/
theorem applyNav_good (st : ViewerSt) (op : NavOp)
    (hval : validNav st.totalPages op) (hg : goodView st) :
    goodView (applyNav st op) ∧ (applyNav st op).totalPages = st.totalPages := by
  obtain ⟨hp, h1, h2, hact⟩ := hg
  have step : ∀ c : Nat, 1 ≤ c → c ≤ st.totalPages →
      goodView (updateActiveThumb { st with curPage := c })
      ∧ (updateActiveThumb { st with curPage := c }).totalPages = st.totalPages := by
    intro c hc1 hc2
    have hspec := updateActiveThumb_spec { st with curPage := c } hp
    exact ⟨⟨hspec.2.2.1.trans hp, by rw [hspec.2.1]; exact hc1,
      by rw [hspec.2.1, hspec.1]; exact hc2,
      by rw [hspec.2.1]; exact hspec.2.2.2⟩, hspec.1⟩
  cases op with
  | click k =>
      exact step k hval.1 hval.2
  | goto k =>
      rw [applyNav, goToPage]
      by_cases h : 1 ≤ k ∧ k ≤ st.totalPages
      · rw [if_pos h]; exact step k h.1 h.2
      · rw [if_neg h]; exact ⟨⟨hp, h1, h2, hact⟩, rfl⟩
  | next =>
      rw [applyNav, nextPage]
      by_cases h : st.curPage < st.totalPages
      · rw [if_pos h]; exact step _ (by omega) (by omega)
      · rw [if_neg h]; exact ⟨⟨hp, h1, h2, hact⟩, rfl⟩
  | prev =>
      rw [applyNav, prevPage]
      by_cases h : 1 < st.curPage
      · rw [if_pos h]; exact step _ (by omega) (by omega)
      · rw [if_neg h]; exact ⟨⟨hp, h1, h2, hact⟩, rfl⟩

/-- A sequence of valid navigation events preserves the viewer invariant
(helper). -/
theorem applyNavSeq_good (ops : List NavOp) (st : ViewerSt) (n : Nat)
    (hn : st.totalPages = n) (hops : ∀ op ∈ ops, validNav n op)
    (hg : goodView st) :
    goodView (applyNavSeq st ops) ∧ (applyNavSeq st ops).totalPages = n := by
  induction ops generalizing st with
  | nil => exact ⟨hg, hn⟩
  | cons op ops ih =>
      have hstep := applyNav_good st op (hn ▸ hops op (List.mem_cons_self op ops)) hg
      exact ih (applyNav st op) (hstep.2.trans hn)
        (fun o ho => hops o (List.mem_cons_of_mem op ho)) hstep.1

/-- The viewer invariant forces exactly one active thumbnail (helper). -/
theorem goodView_one_active (st : ViewerSt) (hg : goodView st) :
    st.thumbs.countP (fun t => t.active) = 1 := by
  obtain ⟨hp, h1, h2, hact⟩ := hg
  have hcongr : st.thumbs.countP (fun t => t.active)
      = st.thumbs.countP (fun t => t.page == st.curPage) :=
    List.countP_congr (fun t ht => by simp [hact t ht])
  have hmap : st.thumbs.countP (fun t => t.page == st.curPage)
      = (st.thumbs.map (fun t => t.page)).countP (fun x => x == st.curPage) := by
    rw [List.countP_map]
    rfl
  rw [hcongr, hmap, hp]
  have hmem : st.curPage ∈ (List.range st.totalPages).map (· + 1) := by
    rcases Nat.exists_eq_add_of_le h1 with ⟨c, hc⟩
    exact List.mem_map.mpr ⟨c, List.mem_range.mpr (by omega), by omega⟩
  have hnd : ((List.range st.totalPages).map (· + 1)).Nodup :=
    List.Nodup.map (fun a b hab => by omega) (List.nodup_range _)
  have hcount : ((List.range st.totalPages).map (· + 1)).count st.curPage = 1 :=
    List.count_eq_one_of_mem hnd hmem
  simpa [List.count] using hcount

/-- C8: after loading an `n`-page document there are exactly `n` thumbnails;
after any sequence of valid thumbnail clicks and programmatic navigation,
exactly one thumbnail is active — the one whose page equals the current
page; clicking thumbnail `k` sets the current page to `k`; and on a 3-page
document, clicking thumbnail 2 leaves exactly thumbnail 2 active with
current page 2. -/
theorem c8_thumbnail_sync (n : Nat) (hn : 1 ≤ n) (ops : List NavOp)
    (hops : ∀ op ∈ ops, validNav n op) :
    ((loadDoc n).thumbs.length = n)
    ∧ ((applyNavSeq (loadDoc n) ops).thumbs.countP (fun t => t.active) = 1)
    ∧ (∀ t ∈ (applyNavSeq (loadDoc n) ops).thumbs,
        t.active = (t.page == (applyNavSeq (loadDoc n) ops).curPage))
    ∧ (∀ (st : ViewerSt) (k : Nat), (clickThumb st k).curPage = k)
    ∧ applyNavSeq (loadDoc 3) [NavOp.click 2]
      = { totalPages := 3, curPage := 2,
          thumbs := [{ page := 1, active := false }, { page := 2, active := true },
                     { page := 3, active := false }] } := by
  have hgood : goodView (loadDoc n) := by
    rw [loadDoc_eq]
    refine ⟨by simp [List.map_map, Function.comp_def], le_refl 1, hn, ?_⟩
    intro t ht
    rcases List.mem_map.mp ht with ⟨i, -, hi⟩
    rw [← hi]
  have hseq := applyNavSeq_good ops (loadDoc n) n (by rw [loadDoc_eq]) hops hgood
  refine ⟨?_, goodView_one_active _ hseq.1, hseq.1.2.2.2, fun st k => rfl, by decide⟩
  rw [loadDoc_eq]
  simp

/-- C8 witness: a 3-page document with a click on thumbnail 2. -/
theorem c8_thumbnail_sync_witness :
    ((loadDoc 3).thumbs.length = 3)
    ∧ ((applyNavSeq (loadDoc 3) [NavOp.click 2]).thumbs.countP
        (fun t => t.active) = 1) :=
  ⟨(c8_thumbnail_sync 3 (by decide) [NavOp.click 2]
      (by intro op hop; simp at hop; subst hop; exact ⟨by decide, by decide⟩)).1,
   (c8_thumbnail_sync 3 (by decide) [NavOp.click 2]
      (by intro op hop; simp at hop; subst hop; exact ⟨by decide, by decide⟩)).2.1⟩

end RevisePDF
